import Mathlib

-- Verification development for the terraform-plan-analyzer repository.
-- The pipeline (plan parser, error detector, recommendation engine,
-- response formatter, agent) is shallowly embedded below; strings are
-- modelled as lists of characters, and the Python regular expressions of
-- the source are compiled either to literal-substring searches (for the
-- patterns that are plain substrings) or to a small derivative-based
-- matcher (for the patterns that use genuine regex syntax).

abbrev Str := List Char

def strL (s : String) : Str := s.toList

-- Characters written via code points to keep the source free of quoting
-- subtleties: apostrophe, double quote, braces, newline.
def apos : Char := Char.ofNat 39

def dq : Char := Char.ofNat 34

def lbrace : Char := Char.ofNat 123

def rbrace : Char := Char.ofNat 125

def nlc : Char := Char.ofNat 10

-- Python \s over the ASCII range: space, tab, newline, vertical tab,
-- form feed, carriage return.
def wsClass (c : Char) : Bool :=
  c == ' ' || c == Char.ofNat 9 || c == Char.ofNat 10 || c == Char.ofNat 11 ||
  c == Char.ofNat 12 || c == Char.ofNat 13

def digitClass (c : Char) : Bool :=
  decide (48 ≤ c.toNat) && decide (c.toNat ≤ 57)

-- ASCII lowering; applying re.IGNORECASE to the all-lowercase patterns of
-- the detector is equivalent to lowering the message first.
def lowerChar (c : Char) : Char :=
  if 65 ≤ c.toNat && c.toNat ≤ 90 then Char.ofNat (c.toNat + 32) else c

def lowerStr (s : Str) : Str := s.map lowerChar

-- Python str.strip().
def trim (s : Str) : Str :=
  ((s.dropWhile wsClass).reverse.dropWhile wsClass).reverse

-- Python str.split(sep) for a single-character separator (keeps empties).
def splitOnChar (ch : Char) : Str → List Str
  | [] => [[]]
  | c :: cs =>
    if c == ch then [] :: splitOnChar ch cs
    else
      match splitOnChar ch cs with
      | p :: ps => (c :: p) :: ps
      | [] => [[c]]

def digitsToNat (ds : Str) : Nat :=
  ds.foldl (fun n c => n * 10 + (c.toNat - 48)) 0

-- Decimal rendering of a count, as Python str(int) produces inside the
-- formatted summary strings.
def natStr (n : Nat) : Str := Nat.toDigits 10 n

-- A minimal regular-expression syntax covering the constructs used by the
-- source patterns that are not plain substrings: character classes,
-- concatenation, alternation, Kleene star.
inductive RE where
  | emp : RE
  | eps : RE
  | cls : (Char → Bool) → RE
  | seq : RE → RE → RE
  | alt : RE → RE → RE
  | star : RE → RE

def RE.nullable : RE → Bool
  | .emp => false
  | .eps => true
  | .cls _ => false
  | .seq a b => a.nullable && b.nullable
  | .alt a b => a.nullable || b.nullable
  | .star _ => true

-- A regex that matches no string at all; used only to cut evaluation
-- short, which does not change the matcher's result.
def RE.dead : RE → Bool
  | .emp => true
  | .eps => false
  | .cls _ => false
  | .seq a b => a.dead || b.dead
  | .alt a b => a.dead && b.dead
  | .star _ => false

def RE.deriv : RE → Char → RE
  | .emp, _ => .emp
  | .eps, _ => .emp
  | .cls p, c => if p c then .eps else .emp
  | .seq a b, c =>
    if a.nullable then .alt (.seq (a.deriv c) b) (b.deriv c)
    else .seq (a.deriv c) b
  | .alt a b, c => .alt (a.deriv c) (b.deriv c)
  | .star a, c => .seq (a.deriv c) (.star a)

-- Does some prefix of s match r?
def matchHere : RE → Str → Bool
  | r, [] => r.nullable
  | r, c :: cs => r.nullable || (!r.dead && matchHere (r.deriv c) cs)

-- Python re.search: does some substring starting anywhere match r?
def research (r : RE) : Str → Bool
  | [] => matchHere r []
  | c :: cs => matchHere r (c :: cs) || research r cs

def reChr (c : Char) : RE := .cls (fun d => d == c)

def reLit (s : Str) : RE := s.foldr (fun c r => .seq (reChr c) r) .eps

def rePlus (r : RE) : RE := .seq r (.star r)

def reWs : RE := .cls wsClass

def reDot : RE := .cls (fun c => !(c == nlc))

-- A detector table pattern: either a plain substring (re.search of a
-- literal pattern is substring presence) or a genuine regex.
inductive Pat where
  | lit : Str → Pat
  | re : RE → Pat

-- Substring presence, scanning every start position.
def isSubstring (pat : Str) : Str → Bool
  | [] => pat.isEmpty
  | c :: cs => pat.isPrefixOf (c :: cs) || isSubstring pat cs

def patMatches : Pat → Str → Bool
  | .lit p, s => isSubstring p s
  | .re r, s => research r s

-- Data model, from src/models.py.

inductive ErrorType where
  | validation
  | dependency
  | permission
  | syntaxErr
  | resourceConflict
  | stateMismatch
  | provider
  | moduleErr
  | other
deriving DecidableEq

-- The string value of each ErrorType member, as declared in models.py.
def errorTypeValue : ErrorType → Str
  | .validation => strL "validation"
  | .dependency => strL "dependency"
  | .permission => strL "permission"
  | .syntaxErr => strL "syntax"
  | .resourceConflict => strL "resource_conflict"
  | .stateMismatch => strL "state_mismatch"
  | .provider => strL "provider"
  | .moduleErr => strL "module"
  | .other => strL "other"

inductive ConfidenceLevel where
  | high
  | medium
  | low
deriving DecidableEq

inductive ResponseStatus where
  | success
  | error
  | unknown
deriving DecidableEq

structure AffectedResource where
  name : Str
  type : Str
  address : Str
deriving DecidableEq

structure Recommendation where
  description : Str
  code : Option Str
  confidence : ConfidenceLevel
deriving DecidableEq

structure Error where
  errorType : ErrorType
  message : Str
  affectedResources : List AffectedResource
  recommendations : List Recommendation
deriving DecidableEq

structure ResourceCounts where
  add : Nat
  change : Nat
  destroy : Nat
deriving DecidableEq

structure ErrorContext where
  message : Str
  resourcePath : Option Str
  lineNumber : Option Str
  resourceType : Option Str
  resourceName : Option Str
deriving DecidableEq

structure PlanSections where
  plan : Str
  errors : Str
deriving DecidableEq

-- The final report; the wall-clock timestamp of the metadata is left out
-- of the model (no claim concerns it), resourceCount is the optional
-- metadata field.
structure Report where
  status : ResponseStatus
  summary : Str
  errors : List Error
  resourceCount : Option ResourceCounts
deriving DecidableEq

-- Plan parser, from the parser module (TerraformPlanParser).

-- Lazy capture of (.*?)(?=\n\n|\Z) with DOTALL: everything up to the first
-- blank line (two consecutive newlines), or to the end of the text.
def upToBlank : Str → Str
  | [] => []
  | [c] => [c]
  | c1 :: c2 :: rest =>
    if c1 == nlc && c2 == nlc then [] else c1 :: upToBlank (c2 :: rest)

-- re.search(r'(Plan:.*?)(?=\n\n|\Z)', text, DOTALL), stripped: the group
-- includes the literal Plan: prefix.
def planRegion : Str → Str
  | [] => []
  | c :: cs =>
    if (strL "Plan:").isPrefixOf (c :: cs) then
      trim (strL "Plan:" ++ upToBlank (cs.drop 4))
    else planRegion cs

def boxPipeChar : Char := Char.ofNat 0x2502

def boxTopChar : Char := Char.ofNat 0x2577

-- Anchor matchers for the three error patterns; each returns the length of
-- the anchor match at the present position (always at least one).
def anchorLen1 (s : Str) : Option Nat :=
  if (strL "Error: ").isPrefixOf s then some 7 else none

def anchorLen2 (s : Str) : Option Nat :=
  if (boxPipeChar :: strL " Error: ").isPrefixOf s then some 9 else none

-- Anchor of r'╷\s*│\s*Error: ': the greedy \s* runs are forced because the
-- characters that follow them in the pattern are never whitespace.
def anchorLen3 : Str → Option Nat
  | [] => none
  | c :: cs =>
    if c == boxTopChar then
      let w1 := (cs.takeWhile wsClass).length
      match cs.drop w1 with
      | d :: ds =>
        if d == boxPipeChar then
          let w2 := (ds.takeWhile wsClass).length
          if (strL "Error: ").isPrefixOf (ds.drop w2) then
            some (1 + w1 + 1 + w2 + 7)
          else none
        else none
      | [] => none
    else none

-- re.findall of anchor ++ (.*?)(?=\n\n|\Z) with DOTALL: scan left to
-- right, capture up to the first blank line, continue after the capture.
-- The scan consumes at least one character per step, so fuel equal to the
-- length of the text is enough; the recursion is structural on the fuel
-- so that the function reduces definitionally.
def findAllCapsAux (alen : Str → Option Nat) : Nat → Str → List Str
  | 0, _ => []
  | _, [] => []
  | fuel + 1, c :: cs =>
    match alen (c :: cs) with
    | some n =>
      let rest := cs.drop (n - 1)
      let cap := upToBlank rest
      cap :: findAllCapsAux alen fuel (rest.drop cap.length)
    | none => findAllCapsAux alen fuel cs

def findAllCaps (alen : Str → Option Nat) (s : Str) : List Str :=
  findAllCapsAux alen s.length s

-- '\n\n'.join
def joinBlank : List Str → Str
  | [] => []
  | [b] => b
  | b :: bs => b ++ nlc :: nlc :: joinBlank bs

def splitIntoSections (planOutput : Str) : PlanSections :=
  let allErrors := findAllCaps anchorLen1 planOutput ++
    findAllCaps anchorLen2 planOutput ++ findAllCaps anchorLen3 planOutput
  { plan := planRegion planOutput,
    errors := if allErrors.isEmpty then [] else joinBlank (allErrors.map trim) }

-- re.search(r'(\d+) to <word>'): at each position a maximal digit run
-- followed by the literal suffix (shortening the greedy run cannot help,
-- since the suffix starts with a space).
def searchNumBefore (suffix : Str) : Str → Option Nat
  | [] => none
  | c :: cs =>
    if digitClass c then
      let run := (c :: cs).takeWhile digitClass
      if suffix.isPrefixOf ((c :: cs).drop run.length) then some (digitsToNat run)
      else searchNumBefore suffix cs
    else searchNumBefore suffix cs

def extractResourceCounts (secs : PlanSections) : Option ResourceCounts :=
  if secs.plan.isEmpty then none
  else
    some
      { add := (searchNumBefore (strL " to add") secs.plan).getD 0,
        change := (searchNumBefore (strL " to change") secs.plan).getD 0,
        destroy := (searchNumBefore (strL " to destroy") secs.plan).getD 0 }

-- Separator matcher for re.split(r'\n\s*\n'): after an initial newline,
-- the greedy \s* backtracks down to the largest k whose following
-- character is again a newline.
def sepKAux (r : Str) : Nat → Option Nat
  | 0 => if r.getD 0 ' ' == nlc then some 0 else none
  | k + 1 => if r.getD (k + 1) ' ' == nlc then some (k + 1) else sepKAux r k

def sepLen : Str → Option Nat
  | [] => none
  | c :: cs =>
    if c == nlc then (sepKAux cs ((cs.takeWhile wsClass).length)).map (fun k => k + 2)
    else none

-- Again fuel-based: every step consumes at least one character.
def splitBlocksAux : Nat → Str → Str → List Str
  | 0, acc, _ => [acc.reverse]
  | _, acc, [] => [acc.reverse]
  | fuel + 1, acc, c :: cs =>
    match sepLen (c :: cs) with
    | some n => acc.reverse :: splitBlocksAux fuel [] (cs.drop (n - 1))
    | none => splitBlocksAux fuel (c :: acc) cs

def splitBlocks (s : Str) : List Str :=
  splitBlocksAux s.length [] s

-- re.search(r'on\s+([^:]+):(\d+)'): the greedy \s+ genuinely backtracks
-- (a shorter whitespace run lets [^:]+ start with whitespace), so try run
-- lengths from the maximum down to one.
def onWs (r : Str) : Nat → Option (Str × Str)
  | 0 => none
  | k + 1 =>
    let rest := r.drop (k + 1)
    let seg := rest.takeWhile (fun c => !(c == ':'))
    if seg.isEmpty then onWs r k
    else
      match rest.drop seg.length with
      | c :: cs2 =>
        if c == ':' then
          let digits := cs2.takeWhile digitClass
          if digits.isEmpty then onWs r k else some (seg, digits)
        else onWs r k
      | [] => onWs r k

def onAt (s : Str) : Option (Str × Str) :=
  if (strL "on").isPrefixOf s then
    onWs (s.drop 2) (((s.drop 2).takeWhile wsClass).length)
  else none

def onFileCap : Str → Option (Str × Str)
  | [] => none
  | c :: cs =>
    match onAt (c :: cs) with
    | some r => some r
    | none => onFileCap cs

-- re.search(r'resource "([^"]+)" "([^"]+)"').
def declAt (s : Str) : Option (Str × Str) :=
  if (strL "resource " ++ [dq]).isPrefixOf s then
    let r := s.drop 10
    let t := r.takeWhile (fun c => !(c == dq))
    if t.isEmpty then none
    else
      let r2 := r.drop t.length
      if [dq, ' ', dq].isPrefixOf r2 then
        let r3 := r2.drop 3
        let n := r3.takeWhile (fun c => !(c == dq))
        if n.isEmpty then none
        else if n.length < r3.length then some (t, n) else none
      else none
  else none

def resourceDeclCap : Str → Option (Str × Str)
  | [] => none
  | c :: cs =>
    match declAt (c :: cs) with
    | some r => some r
    | none => resourceDeclCap cs

-- re.search(r'([a-zA-Z0-9_\-.]+\.[a-zA-Z0-9_\-.]+)(?:\[\d+\])?'): a match
-- at a position is the maximal run of address characters there, provided
-- the run has a dot that is neither its first nor its last character; the
-- captured group is then the whole run.
def addrClass (c : Char) : Bool :=
  (decide (97 ≤ c.toNat) && decide (c.toNat ≤ 122)) ||
  (decide (65 ≤ c.toNat) && decide (c.toNat ≤ 90)) ||
  digitClass c || c == '_' || c == '-' || c == '.'

def hasInternalDot (run : Str) : Bool :=
  ((run.drop 1).dropLast).contains '.'

def altAt (s : Str) : Option Str :=
  let run := s.takeWhile addrClass
  if hasInternalDot run then some run else none

def altAddressCap : Str → Option Str
  | [] => none
  | c :: cs =>
    match altAt (c :: cs) with
    | some r => some r
    | none => altAddressCap cs

-- The two-strategy resource type/name extraction of
-- extract_error_contexts: declaration pattern first, dotted-address
-- fallback second, taking the last two dot-separated parts.
def contextTypeName (block : Str) : Option Str × Option Str :=
  match resourceDeclCap block with
  | some (t, n) => (some t, some n)
  | none =>
    match altAddressCap block with
    | some tok =>
      let parts := splitOnChar '.' tok
      if 2 ≤ parts.length then
        (some (parts.getD (parts.length - 2) []), some (parts.getD (parts.length - 1) []))
      else (none, none)
    | none => (none, none)

def buildContext (block : Str) : ErrorContext :=
  { message := trim block,
    resourcePath := (onFileCap block).map Prod.fst,
    lineNumber := (onFileCap block).map Prod.snd,
    resourceType := (contextTypeName block).1,
    resourceName := (contextTypeName block).2 }

def extractErrorContexts (secs : PlanSections) : List ErrorContext :=
  if secs.errors.isEmpty then []
  else ((splitBlocks secs.errors).filter (fun b => !(trim b).isEmpty)).map buildContext

-- Error detector, from the error detector module (ErrorDetector).

def lparen : Char := Char.ofNat 40

def rparen : Char := Char.ofNat 41

-- ERROR_PATTERNS: the fixed ordered table of (pattern, category) pairs,
-- in source order (Python dict literals preserve insertion order).
-- Literal patterns are kept as substrings; the three genuine regexes
-- (expected\s+.*\s+but\s+got, expected ["\(], unexpected ["\)]) and the
-- dotted registry pattern are compiled to the RE syntax.
def ERROR_PATTERNS : List (Pat × ErrorType) :=
  [(.lit (strL "validation failed"), .validation),
   (.re (.seq (reLit (strL "expected")) (.seq (rePlus reWs) (.seq (.star reDot)
      (.seq (rePlus reWs) (.seq (reLit (strL "but")) (.seq (rePlus reWs)
      (reLit (strL "got")))))))), .validation),
   (.lit (strL "required field is not set"), .validation),
   (.lit (strL "value must be one of"), .validation),
   (.lit (strL "must contain at least"), .validation),
   (.lit (strL "invalid value"), .validation),
   (.lit (strL "unknown resource"), .dependency),
   (.lit (strL "depends on resource"), .dependency),
   (.lit (strL "referenced by"), .dependency),
   (.lit (strL "cyclic dependency"), .dependency),
   (.lit (strL "cannot resolve"), .dependency),
   (.lit (strL "access denied"), .permission),
   (.lit (strL "not authorized"), .permission),
   (.lit (strL "permission denied"), .permission),
   (.lit (strL "credentials"), .permission),
   (.lit (strL "authentication"), .permission),
   (.lit (strL "forbidden"), .permission),
   (.lit (strL "syntax error"), .syntaxErr),
   (.re (.seq (reLit (strL "expected ")) (.cls (fun c => c == dq || c == lparen))), .syntaxErr),
   (.re (.seq (reLit (strL "unexpected ")) (.cls (fun c => c == dq || c == rparen))), .syntaxErr),
   (.lit (strL "invalid block definition"), .syntaxErr),
   (.lit (strL "already exists"), .resourceConflict),
   (.lit (strL "conflicts with"), .resourceConflict),
   (.lit (strL "duplicate"), .resourceConflict),
   (.lit (strL "in use"), .resourceConflict),
   (.lit (strL "state is out of date"), .stateMismatch),
   (.lit (strL "does not match"), .stateMismatch),
   (.lit (strL "importing"), .stateMismatch),
   (.lit (strL "drift detected"), .stateMismatch),
   (.lit (strL "provider"), .provider),
   (.lit (strL "plugin"), .provider),
   (.re (.seq (reLit (strL "registry")) (.seq reDot (.seq (reLit (strL "terraform"))
      (.seq reDot (reLit (strL "io")))))), .provider),
   (.lit (strL "module"), .moduleErr),
   (.lit (strL "source"), .moduleErr),
   (.lit (strL "version constraint"), .moduleErr)]

-- The classification loop: return the category of the first matching
-- pattern, ErrorType.other when none matches.
def classifyGo (m : Str) : List (Pat × ErrorType) → ErrorType
  | [] => .other
  | e :: rest => if patMatches e.1 m then e.2 else classifyGo m rest

def classifyErrorType (errorMessage : Str) : ErrorType :=
  classifyGo (lowerStr errorMessage) ERROR_PATTERNS

theorem dropWhile_length_le (p : Char → Bool) (l : Str) :
    (l.dropWhile p).length ≤ l.length := by
  induction l with
  | nil => simp
  | cons c cs ih =>
    by_cases h : p c
    · simp [List.dropWhile, h]
      omega
    · simp [List.dropWhile, h]

-- re.sub(r'Error:\s+', ''): every occurrence of the prefix together with
-- the following whitespace run is removed.  Fuel-based as above.
def stripErrorAux : Nat → Str → Str
  | 0, _ => []
  | _, [] => []
  | fuel + 1, c :: cs =>
    if (strL "Error:").isPrefixOf (c :: cs) then
      let r := cs.drop 5
      let w := (r.takeWhile wsClass).length
      if w == 0 then c :: stripErrorAux fuel cs
      else stripErrorAux fuel (r.drop w)
    else c :: stripErrorAux fuel cs

def stripErrorPrefixes (s : Str) : Str :=
  stripErrorAux s.length s

-- re.sub(r'\s+', ' '): collapse every whitespace run to a single space.
-- Fuel-based as above.
def collapseWsAux : Nat → Str → Str
  | 0, _ => []
  | _, [] => []
  | fuel + 1, c :: cs =>
    if wsClass c then ' ' :: collapseWsAux fuel (cs.dropWhile wsClass)
    else c :: collapseWsAux fuel cs

def collapseWs (s : Str) : Str :=
  collapseWsAux s.length s

-- The alternation (expected|required|must|invalid) at the present
-- position (the four words start with distinct letters, so at most one
-- alternative applies).
def kwAt (s : Str) : Option (Str × Str) :=
  if (strL "expected").isPrefixOf s then some (strL "expected", s.drop 8)
  else if (strL "required").isPrefixOf s then some (strL "required", s.drop 8)
  else if (strL "must").isPrefixOf s then some (strL "must", s.drop 4)
  else if (strL "invalid").isPrefixOf s then some (strL "invalid", s.drop 7)
  else none

-- re.search(r'(.*?)(expected|required|must|invalid)(.+)'): the lazy
-- group grows one (non-newline) character at a time until a keyword with
-- at least one non-newline character after it is found.
def valAux : Str → Str → Option (Str × Str × Str)
  | _, [] => none
  | acc, c :: cs =>
    match kwAt (c :: cs) with
    | some (kw, rest) =>
      match rest with
      | r :: _ =>
        if r == nlc then
          if c == nlc then none else valAux (c :: acc) cs
        else some (acc.reverse, kw, rest.takeWhile (fun ch => !(ch == nlc)))
      | [] => if c == nlc then none else valAux (c :: acc) cs
    | none => if c == nlc then none else valAux (c :: acc) cs

def valSearch : Str → Option (Str × Str × Str)
  | [] => none
  | c :: cs =>
    match valAux [] (c :: cs) with
    | some r => some r
    | none => valSearch cs

-- _humanize_error_message: strip Error: prefixes, collapse whitespace,
-- strip, then apply the category template.
def humanizeMessage (errorMessage : Str) (t : ErrorType) : Str :=
  let message := trim (collapseWs (stripErrorPrefixes errorMessage))
  match t with
  | .validation =>
    match valSearch message with
    | some (g1, g2, g3) =>
      strL "The value for " ++ [apos] ++ trim g1 ++ [apos] ++ strL " is invalid. " ++
        (trim g2 ++ trim g3) ++ strL "."
    | none => message
  | .permission => strL "You don" ++ [apos] ++ strL "t have sufficient permissions: " ++ message
  | .dependency => strL "There" ++ [apos] ++ strL "s a dependency issue: " ++ message
  | .syntaxErr => strL "There" ++ [apos] ++ strL "s a syntax error in your configuration: " ++ message
  | .resourceConflict => strL "Resource conflict detected: " ++ message
  | .stateMismatch =>
    strL "The Terraform state doesn" ++ [apos] ++ strL "t match the actual infrastructure: " ++ message
  | .provider => strL "There" ++ [apos] ++ strL "s an issue with the provider configuration: " ++ message
  | .moduleErr => strL "There" ++ [apos] ++ strL "s an issue with a module: " ++ message
  | .other => message

-- detect_errors: the affected resource is attached only when both the
-- type and the name are present and non-empty (Python truthiness).
def affectedOf (ctx : ErrorContext) : List AffectedResource :=
  match ctx.resourceType, ctx.resourceName with
  | some rt, some rn =>
    if rt.isEmpty || rn.isEmpty then []
    else [{ name := rn, type := rt, address := rt ++ '.' :: rn }]
  | _, _ => []

def detectErrors (ctxs : List ErrorContext) : List Error :=
  ctxs.map fun ctx =>
    { errorType := classifyErrorType ctx.message,
      message := humanizeMessage ctx.message (classifyErrorType ctx.message),
      affectedResources := affectedOf ctx,
      recommendations := [] }

-- Recommendation engine, from the recommender module
-- (RecommendationEngine).

-- Leftmost capture for a pattern of the shape pre([^stop]+)stop: at each
-- start the greedy character class is forced (a shorter run is followed
-- by a non-stop character), so the capture is the maximal non-stop run,
-- which must be non-empty and followed by the stop character.
def capAt1 (pre : Str) (stop : Char) (s : Str) : Option Str :=
  if pre.isPrefixOf s then
    let r := s.drop pre.length
    let seg := r.takeWhile (fun c => !(c == stop))
    if seg.isEmpty then none
    else if seg.length < r.length then some seg else none
  else none

def capLit1 (pre : Str) (stop : Char) : Str → Option Str
  | [] => none
  | c :: cs =>
    match capAt1 pre stop (c :: cs) with
    | some x => some x
    | none => capLit1 pre stop cs

-- Leftmost capture for a pattern of the shape pre(.+): the greedy dot
-- group is the maximal non-empty run of non-newline characters.
def capAtDot (pre : Str) (s : Str) : Option Str :=
  if pre.isPrefixOf s then
    let seg := (s.drop pre.length).takeWhile (fun c => !(c == nlc))
    if seg.isEmpty then none else some seg
  else none

def capLitDot (pre : Str) : Str → Option Str
  | [] => none
  | c :: cs =>
    match capAtDot pre (c :: cs) with
    | some x => some x
    | none => capLitDot pre cs

-- re.search of an alternation of literals is presence of any of them.
def anySub (pats : List Str) (s : Str) : Bool :=
  pats.any fun p => isSubstring p s

-- re.search(r"value for '([^']+)'") with the fallback default.
def valFieldName (msg : Str) : Str :=
  (capLit1 (strL "value for " ++ [apos]) apos msg).getD (strL "the field")

def requiredFieldSnippet (resourceType field : Str) : Str :=
  strL "resource \"" ++ resourceType ++ strL "\" \"name\" \n  # Add this required field\n  " ++
    field ++ strL " = \"value\"\n  # ... other configuration ...\n"

-- error.affectedResources[0].type if error.affectedResources else
-- "resource" (and likewise for the name), shared by several handlers.
def confResourceType (e : Error) : Str :=
  match e.affectedResources with
  | r :: _ => r.type
  | [] => strL "resource"

def confResourceName (e : Error) : Str :=
  match e.affectedResources with
  | r :: _ => r.name
  | [] => strL "name"

def recsForValidation (e : Error) : List Recommendation :=
  let field := valFieldName e.message
  match capLitDot (strL "expected ") e.message with
  | some expectedValue =>
    [{ description := strL "Update " ++ field ++ strL " to match the expected format: " ++ expectedValue,
       code := none, confidence := .high }]
  | none =>
    if isSubstring (strL "required field") e.message then
      [{ description := strL "Add the required " ++ [apos] ++ field ++ [apos] ++
           strL " field to your " ++ confResourceType e ++ strL " configuration",
         code := some (requiredFieldSnippet (confResourceType e) field), confidence := .high }]
    else
      [{ description := strL "Check the documentation for valid values of " ++ [apos] ++ field ++
           [apos] ++ strL " and update your configuration accordingly",
         code := none, confidence := .medium }]

def recsForDependency (e : Error) : List Recommendation :=
  match capLit1 (strL "unknown resource " ++ [apos]) apos e.message with
  | some resourceRef =>
    [{ description := strL "Define the missing resource " ++ [apos] ++ resourceRef ++ [apos] ++
         strL " or correct the reference if it" ++ [apos] ++ strL "s misspelled",
       code := none, confidence := .high },
     { description := strL "Ensure that the resource " ++ [apos] ++ resourceRef ++ [apos] ++
         strL " is in the correct module scope",
       code := none, confidence := .medium }]
  | none =>
    if isSubstring (strL "cyclic dependency") e.message then
      [{ description := strL "Break the circular dependency between resources by restructuring your configuration",
         code := none, confidence := .medium },
       { description := strL "Consider using a local value or variable to break the dependency cycle",
         code := some (strL "locals \x7b\n  intermediate_value = \"something\"\n\x7d\n\nresource \"type\" \"name\" \x7b\n  property = local.intermediate_value\n\x7d"),
         confidence := .medium }]
    else
      [{ description := strL "Check that all referenced resources exist and are correctly spelled",
         code := none, confidence := .medium },
       { description := strL "Make sure your resource dependencies are correctly defined using depends_on if needed",
         code := some (strL "resource \"type\" \"name\" \x7b\n  # ...\n  depends_on = [\n    resource.dependency\n  ]\n\x7d"),
         confidence := .medium }]

def recsForPermission (e : Error) : List Recommendation :=
  { description := strL "Check that your credentials have sufficient permissions for this operation",
    code := none, confidence := ConfidenceLevel.high } ::
  ((if anySub [strL "AWS", strL "IAM", strL "arn:aws"] e.message then
      [{ description := strL "Ensure your AWS IAM user or role has the necessary permissions to manage these resources",
         code := some (strL "\x7b\n  \"Version\": \"2012-10-17\",\n  \"Statement\": [\n    \x7b\n      \"Effect\": \"Allow\",\n      \"Action\": [\n        \"service:Action\"\n      ],\n      \"Resource\": \"*\"\n    \x7d\n  ]\n\x7d"),
         confidence := ConfidenceLevel.medium }]
    else if anySub [strL "Azure", strL "Microsoft"] e.message then
      [{ description := strL "Check that your Azure service principal has the required role assignments",
         code := some (strL "az role assignment create --assignee \"$CLIENT_ID\" --role \"Contributor\" --scope \"/subscriptions/$SUBSCRIPTION_ID\""),
         confidence := ConfidenceLevel.medium }]
    else []) ++
   [{ description := strL "Verify that your authentication credentials are correct and not expired",
      code := none, confidence := ConfidenceLevel.medium }])

def recsForSyntax (e : Error) : List Recommendation :=
  (if anySub [strL "expected quote", strL "expected \"", strL "missing quote", strL "missing \""] e.message then
    [{ description := strL "Check for missing or unbalanced quotes in your configuration",
       code := none, confidence := ConfidenceLevel.high }]
   else if anySub [strL "expected bracket", strL "expected \x7b", strL "expected \x7d",
       strL "expected (", strL "expected )", strL "missing bracket", strL "missing \x7b",
       strL "missing \x7d", strL "missing (", strL "missing )"] e.message then
    [{ description := strL "Fix unbalanced brackets or braces in your configuration",
       code := none, confidence := ConfidenceLevel.high }]
   else []) ++
  [{ description := strL "Run " ++ [apos] ++ strL "terraform fmt" ++ [apos] ++
       strL " to automatically fix minor syntax issues",
     code := some (strL "terraform fmt"), confidence := .high },
   { description := strL "Check the HCL syntax documentation for proper formatting",
     code := none, confidence := .medium }]

def recsForConflict (e : Error) : List Recommendation :=
  (if isSubstring (strL "already exists") e.message then
    [{ description := strL "Import the existing resource into your Terraform state instead of creating a new one",
       code := some (strL "terraform import " ++ confResourceType e ++ '.' :: confResourceName e ++ strL " <resource_id>"),
       confidence := ConfidenceLevel.high },
     { description := strL "Use a different name for your " ++ confResourceType e ++ strL " to avoid the conflict",
       code := none, confidence := ConfidenceLevel.medium }]
   else if isSubstring (strL "in use") e.message then
    [{ description := strL "Identify and remove the dependency on this resource before making changes",
       code := none, confidence := ConfidenceLevel.medium }]
   else []) ++
  [{ description := strL "Check if you can use " ++ [apos] ++ strL "terraform state rm" ++ [apos] ++
       strL " to remove the conflicting resource from state if it no longer exists",
     code := some (strL "terraform state rm " ++ confResourceType e ++ '.' :: confResourceName e),
     confidence := .low }]

def recsForStateMismatch (e : Error) : List Recommendation :=
  [{ description := strL "Refresh the Terraform state to match the current real infrastructure",
     code := some (strL "terraform refresh"), confidence := .high },
   { description := strL "Import the existing resource into your Terraform state",
     code := some (strL "terraform import " ++ confResourceType e ++ '.' :: confResourceName e ++ strL " <resource_id>"),
     confidence := .medium },
   { description := strL "If the resource has been manually modified, update your configuration to match the current state",
     code := none, confidence := .medium }]

def recsForProvider (e : Error) : List Recommendation :=
  (if isSubstring (strL "version") e.message then
    [{ description := strL "Update your provider version constraint in the required_providers block",
       code := some (strL "terraform \x7b\n  required_providers \x7b\n    aws = \x7b\n      source  = \"hashicorp/aws\"\n      version = \"~> 4.0\"\n    \x7d\n  \x7d\n\x7d"),
       confidence := ConfidenceLevel.high }]
   else if anySub [strL "plugin", strL "binary"] e.message then
    [{ description := strL "Reinstall the provider plugin by running terraform init",
       code := some (strL "terraform init -upgrade"), confidence := ConfidenceLevel.high }]
   else []) ++
  [{ description := strL "Check your provider configuration for any missing required attributes",
     code := none, confidence := .medium }]

def recsForModule (e : Error) : List Recommendation :=
  (if isSubstring (strL "source") e.message then
    [{ description := strL "Check that the module source URL is correct and accessible",
       code := some (strL "module \"example\" \x7b\n  source = \"hashicorp/consul/aws\"\n  version = \"0.1.0\"\n\x7d"),
       confidence := ConfidenceLevel.high }]
   else if isSubstring (strL "version") e.message then
    [{ description := strL "Update the module version to a compatible version",
       code := some (strL "module \"example\" \x7b\n  source  = \"hashicorp/consul/aws\"\n  version = \"~> 0.1.0\"\n\x7d"),
       confidence := ConfidenceLevel.high }]
   else []) ++
  [{ description := strL "Run terraform init to download any missing modules",
     code := some (strL "terraform init"), confidence := .medium }]

def recsForOther (_e : Error) : List Recommendation :=
  [{ description := strL "Check the Terraform documentation for this specific error message",
     code := none, confidence := .medium },
   { description := strL "Try running " ++ [apos] ++ strL "terraform validate" ++ [apos] ++
       strL " for more detailed error information",
     code := some (strL "terraform validate"), confidence := .medium },
   { description := strL "Make sure you" ++ [apos] ++
       strL "re using a compatible Terraform version for your configuration",
     code := none, confidence := .low }]

-- _generate_recommendations_for_error: dispatch on the error type.
def genRecsForError (e : Error) : List Recommendation :=
  match e.errorType with
  | .validation => recsForValidation e
  | .dependency => recsForDependency e
  | .permission => recsForPermission e
  | .syntaxErr => recsForSyntax e
  | .resourceConflict => recsForConflict e
  | .stateMismatch => recsForStateMismatch e
  | .provider => recsForProvider e
  | .moduleErr => recsForModule e
  | .other => recsForOther e

def generateRecommendations (errors : List Error) : List Error :=
  errors.map fun e => { e with recommendations := genRecsForError e }

-- Response formatter, from the formatter module (ResponseFormatter).

def hasHighConfidenceRec (errors : List Error) : Bool :=
  errors.any fun e => e.recommendations.any fun r => decide (r.confidence = ConfidenceLevel.high)

def determineStatus (errors : List Error) : ResponseStatus :=
  if errors.isEmpty then .success
  else if !hasHighConfidenceRec errors then .unknown
  else .error

-- The error_types dict of _generate_summary: increment an existing key in
-- place, append a new key at the end (insertion order).
def bump (k : ErrorType) : List (ErrorType × Nat) → List (ErrorType × Nat)
  | [] => [(k, 1)]
  | (t, c) :: rest => if t = k then (t, c + 1) :: rest else (t, c) :: bump k rest

def typeCounts (errors : List Error) : List (ErrorType × Nat) :=
  errors.foldl (fun acc e => bump e.errorType acc) []

-- Python max(items, key=count): keeps the current element unless a later
-- one is strictly greater, so the first maximal element wins.
def maxFirst : List (ErrorType × Nat) → Option (ErrorType × Nat)
  | [] => none
  | x :: rest => some (rest.foldl (fun cur y => if cur.2 < y.2 then y else cur) x)

def generateSummary (status : ResponseStatus) (errors : List Error) : Str :=
  if status = .success then strL "Your Terraform plan looks good! No errors were detected."
  else if status = .unknown then
    strL "Found " ++ natStr errors.length ++ strL " issue" ++
      (if errors.length = 1 then [] else strL "s") ++
      strL " in your Terraform plan, but couldn" ++ [apos] ++
      strL "t determine specific solutions. Check the error details for more information."
  else
    match maxFirst (typeCounts errors) with
    | some m =>
      strL "Found " ++ natStr errors.length ++ strL " issue" ++
        (if errors.length = 1 then [] else strL "s") ++
        strL " in your Terraform plan. Most are related to " ++ errorTypeValue m.1 ++
        strL " problems. Check the recommendations for solutions."
    | none =>
      strL "Found " ++ natStr errors.length ++ strL " issue" ++
        (if errors.length = 1 then [] else strL "s") ++
        strL " in your Terraform plan. Check the recommendations for solutions."

def formatResponse (errors : List Error) (resourceCounts : Option ResourceCounts) : Report :=
  { status := determineStatus errors,
    summary := generateSummary (determineStatus errors) errors,
    errors := errors,
    resourceCount := resourceCounts }

-- Agent, from src/agent.py (analyze_terraform_plan).
def analyzeTerraformPlan (planOutput : Str) : Report :=
  if (extractErrorContexts (splitIntoSections planOutput)).isEmpty then
    formatResponse [] (extractResourceCounts (splitIntoSections planOutput))
  else if (detectErrors (extractErrorContexts (splitIntoSections planOutput))).isEmpty then
    formatResponse [] (extractResourceCounts (splitIntoSections planOutput))
  else
    formatResponse
      (generateRecommendations (detectErrors (extractErrorContexts (splitIntoSections planOutput))))
      (extractResourceCounts (splitIntoSections planOutput))

-- Theorems.

theorem hasHigh_iff (errors : List Error) :
    hasHighConfidenceRec errors = true ↔
      ∃ e ∈ errors, ∃ r ∈ e.recommendations, r.confidence = ConfidenceLevel.high := by
  simp [hasHighConfidenceRec, List.any_eq_true]

/-- Claim C2: report status is determined exactly by: an empty error list
gives status success; a non-empty error list where no error has a
high-confidence recommendation gives status unknown; a non-empty error
list where some error has a high-confidence recommendation gives status
error. -/
theorem claim2_status_determination (errors : List Error) (rc : Option ResourceCounts) :
    (errors = [] → (formatResponse errors rc).status = ResponseStatus.success)
  ∧ (errors ≠ [] →
      (¬ ∃ e ∈ errors, ∃ r ∈ e.recommendations, r.confidence = ConfidenceLevel.high) →
      (formatResponse errors rc).status = ResponseStatus.unknown)
  ∧ ((∃ e ∈ errors, ∃ r ∈ e.recommendations, r.confidence = ConfidenceLevel.high) →
      (formatResponse errors rc).status = ResponseStatus.error) := by
  refine ⟨?_, ?_, ?_⟩
  · intro h
    subst h
    rfl
  · intro hne hnex
    have hh : hasHighConfidenceRec errors = false := by
      rw [← Bool.not_eq_true, hasHigh_iff]
      exact hnex
    show determineStatus errors = ResponseStatus.unknown
    rcases errors with _ | ⟨e, es⟩
    · exact absurd rfl hne
    · simp [determineStatus, List.isEmpty, hh]
  · intro hex
    have hh : hasHighConfidenceRec errors = true := (hasHigh_iff errors).mpr hex
    have hne : errors ≠ [] := by
      rcases hex with ⟨e, he, _⟩
      exact List.ne_nil_of_mem he
    show determineStatus errors = ResponseStatus.error
    rcases errors with _ | ⟨e, es⟩
    · exact absurd rfl hne
    · simp [determineStatus, List.isEmpty, hh]

theorem claim2_witness :
    (formatResponse [⟨ErrorType.other, [], [], [⟨[], none, ConfidenceLevel.high⟩]⟩] none).status =
      ResponseStatus.error :=
  (claim2_status_determination [⟨ErrorType.other, [], [], [⟨[], none, ConfidenceLevel.high⟩]⟩] none).2.2
    ⟨⟨ErrorType.other, [], [], [⟨[], none, ConfidenceLevel.high⟩]⟩, by simp,
     ⟨[], none, ConfidenceLevel.high⟩, by simp, rfl⟩

/-- Claim C4: for every plan text from which no error contexts are
extracted, analyze returns a report with status success, an empty error
list, and whatever resource counts could be extracted. -/
theorem claim4_no_contexts_success (s : Str)
    (h : extractErrorContexts (splitIntoSections s) = []) :
    (analyzeTerraformPlan s).status = ResponseStatus.success
  ∧ (analyzeTerraformPlan s).errors = []
  ∧ (analyzeTerraformPlan s).resourceCount = extractResourceCounts (splitIntoSections s) := by
  have hE : (extractErrorContexts (splitIntoSections s)).isEmpty = true := by
    rw [h]
    rfl
  unfold analyzeTerraformPlan
  rw [if_pos hE]
  exact ⟨rfl, rfl, rfl⟩

theorem claim4_witness :
    (analyzeTerraformPlan (strL "No changes. Your infrastructure matches the configuration.")).status =
      ResponseStatus.success
  ∧ (analyzeTerraformPlan (strL "No changes. Your infrastructure matches the configuration.")).errors = []
  ∧ (analyzeTerraformPlan (strL "No changes. Your infrastructure matches the configuration.")).resourceCount =
      extractResourceCounts (splitIntoSections (strL "No changes. Your infrastructure matches the configuration.")) :=
  claim4_no_contexts_success _ (by rfl)

theorem analyze_resourceCount (s : Str) :
    (analyzeTerraformPlan s).resourceCount = extractResourceCounts (splitIntoSections s) := by
  unfold analyzeTerraformPlan
  split
  · rfl
  · split
    · rfl
    · rfl

/-- Claim C5: when a Plan: region is present, the report's resource count
is the triple of counts read from the "N to add", "M to change",
"K to destroy" phrases of the plan region, each defaulting to zero when
its phrase is absent; when no Plan: region is found the resource count is
absent (none). -/
theorem claim5_resource_counts (s : Str) :
    ((splitIntoSections s).plan = [] → (analyzeTerraformPlan s).resourceCount = none)
  ∧ ((splitIntoSections s).plan ≠ [] →
      (analyzeTerraformPlan s).resourceCount =
        some { add := (searchNumBefore (strL " to add") ((splitIntoSections s).plan)).getD 0,
               change := (searchNumBefore (strL " to change") ((splitIntoSections s).plan)).getD 0,
               destroy := (searchNumBefore (strL " to destroy") ((splitIntoSections s).plan)).getD 0 }) := by
  constructor
  · intro h
    rw [analyze_resourceCount]
    unfold extractResourceCounts
    rw [if_pos (by rw [h]; rfl)]
  · intro h
    rw [analyze_resourceCount]
    unfold extractResourceCounts
    rw [if_neg (by simpa [List.isEmpty_iff] using h)]

theorem claim5_witness :
    (analyzeTerraformPlan (strL "Plan: 3 to add, 1 to change, 2 to destroy.")).resourceCount =
      some ⟨3, 1, 2⟩ := by
  rw [(claim5_resource_counts (strL "Plan: 3 to add, 1 to change, 2 to destroy.")).2 (by decide)]
  rfl

/-- Claim C6: for every Error of type validation the synthesizer returns:
if the humanized message contains "expected X", exactly one
high-confidence recommendation naming X; else if it contains
"required field", exactly one high-confidence recommendation with an
example code snippet; else exactly one medium-confidence generic
recommendation. -/
theorem claim6_validation_recs (e : Error) (h : e.errorType = ErrorType.validation) :
    (∀ X, capLitDot (strL "expected ") e.message = some X →
      genRecsForError e =
        [{ description := strL "Update " ++ valFieldName e.message ++
             strL " to match the expected format: " ++ X,
           code := none, confidence := ConfidenceLevel.high }])
  ∧ (capLitDot (strL "expected ") e.message = none →
      isSubstring (strL "required field") e.message = true →
      genRecsForError e =
        [{ description := strL "Add the required " ++ [apos] ++ valFieldName e.message ++ [apos] ++
             strL " field to your " ++ confResourceType e ++ strL " configuration",
           code := some (requiredFieldSnippet (confResourceType e) (valFieldName e.message)),
           confidence := ConfidenceLevel.high }])
  ∧ (capLitDot (strL "expected ") e.message = none →
      isSubstring (strL "required field") e.message = false →
      genRecsForError e =
        [{ description := strL "Check the documentation for valid values of " ++ [apos] ++
             valFieldName e.message ++ [apos] ++ strL " and update your configuration accordingly",
           code := none, confidence := ConfidenceLevel.medium }]) := by
  have hgen : genRecsForError e = recsForValidation e := by
    rcases e with ⟨et, msg, ar, recs⟩
    have h2 : et = ErrorType.validation := h
    subst h2
    rfl
  refine ⟨?_, ?_, ?_⟩
  · intro X hX
    rw [hgen]
    simp only [recsForValidation, hX]
  · intro hnone hreq
    rw [hgen]
    simp only [recsForValidation, hnone, hreq, if_true]
  · intro hnone hreq
    rw [hgen]
    simp only [recsForValidation, hnone, hreq]
    rw [if_neg (by simp [hreq])]

theorem claim6_witness :
    genRecsForError ⟨ErrorType.validation,
        strL "The value for " ++ [apos] ++ strL "a" ++ [apos] ++ strL " is invalid. expected string",
        [], []⟩ =
      [{ description := strL "Update a to match the expected format: string",
         code := none, confidence := ConfidenceLevel.high }] := by
  rw [(claim6_validation_recs _ rfl).1 (strL "string") (by rfl)]
  rfl

/-- Claim C8: for the scenario input containing
"Error: access denied performing iam:CreateRole", the produced error has
errorType permission, its message starts with
"You don't have sufficient permissions:", its recommendations include a
high-confidence generic one without a snippet, and none of them carries a
snippet (the vendor probe matches AWS, IAM or arn:aws literally, so the
lowercase iam does not trigger it). -/
theorem claim8_permission_scenario :
    ∃ e : Error,
      (analyzeTerraformPlan (strL "Error: access denied performing iam:CreateRole")).errors = [e]
    ∧ e.errorType = ErrorType.permission
    ∧ (strL "You don" ++ [apos] ++ strL "t have sufficient permissions:").isPrefixOf e.message = true
    ∧ (e.recommendations.any fun r =>
        decide (r.confidence = ConfidenceLevel.high) && decide (r.code = none)) = true
    ∧ (e.recommendations.all fun r => decide (r.code = none)) = true := by
  refine ⟨⟨ErrorType.permission,
      strL "You don" ++ [apos] ++
        strL "t have sufficient permissions: access denied performing iam:CreateRole",
      [],
      [⟨strL "Check that your credentials have sufficient permissions for this operation",
        none, ConfidenceLevel.high⟩,
       ⟨strL "Verify that your authentication credentials are correct and not expired",
        none, ConfidenceLevel.medium⟩]⟩, ?_, rfl, rfl, rfl, rfl⟩
  rfl

/-- Claim C9: for an error block containing resource "aws_instance" "web"
and a message containing "already exists", the produced error carries the
affected resource (type aws_instance, name web, address aws_instance.web),
has errorType resource_conflict, and its recommendations include a
high-confidence import suggestion whose snippet contains
"terraform import aws_instance.web". -/
theorem claim9_conflict_scenario :
    ∃ e : Error,
      (analyzeTerraformPlan (strL "Error: resource \"aws_instance\" \"web\" already exists")).errors = [e]
    ∧ e.affectedResources = [⟨strL "web", strL "aws_instance", strL "aws_instance.web"⟩]
    ∧ e.errorType = ErrorType.resourceConflict
    ∧ (e.recommendations.any fun r =>
        decide (r.confidence = ConfidenceLevel.high) &&
        (r.code.map (fun c => isSubstring (strL "terraform import aws_instance.web") c)).getD false)
        = true := by
  refine ⟨⟨ErrorType.resourceConflict,
      strL "Resource conflict detected: resource \"aws_instance\" \"web\" already exists",
      [⟨strL "web", strL "aws_instance", strL "aws_instance.web"⟩],
      [⟨strL "Import the existing resource into your Terraform state instead of creating a new one",
        some (strL "terraform import aws_instance.web <resource_id>"), ConfidenceLevel.high⟩,
       ⟨strL "Use a different name for your aws_instance to avoid the conflict",
        none, ConfidenceLevel.medium⟩,
       ⟨strL "Check if you can use " ++ [apos] ++ strL "terraform state rm" ++ [apos] ++
          strL " to remove the conflicting resource from state if it no longer exists",
        some (strL "terraform state rm aws_instance.web"), ConfidenceLevel.low⟩]⟩,
    ?_, rfl, rfl, rfl⟩
  rfl

/-- Claim C10: when an error block has no resource declaration, the
dotted-address fallback takes the last two dot-separated segments of the
first token of the block with an internal dot, including file names from
on file:line references; in particular the block from
"Error: something bad happened on main.tf:3" yields an error whose
affected resource is type main, name tf, address main.tf. -/
theorem claim10_dotted_fallback :
    (∀ block tok : Str, resourceDeclCap block = none → altAddressCap block = some tok →
      2 ≤ (splitOnChar '.' tok).length →
      (buildContext block).resourceType =
        some ((splitOnChar '.' tok).getD ((splitOnChar '.' tok).length - 2) [])
      ∧ (buildContext block).resourceName =
        some ((splitOnChar '.' tok).getD ((splitOnChar '.' tok).length - 1) []))
  ∧ (∃ e : Error,
      (analyzeTerraformPlan (strL "Error: something bad happened on main.tf:3")).errors = [e]
    ∧ e.affectedResources = [⟨strL "tf", strL "main", strL "main.tf"⟩]) := by
  constructor
  · intro block tok h1 h2 h3
    simp only [buildContext, contextTypeName, h1, h2]
    rw [if_pos h3]
    exact ⟨rfl, rfl⟩
  · refine ⟨⟨ErrorType.other, strL "something bad happened on main.tf:3",
      [⟨strL "tf", strL "main", strL "main.tf"⟩],
      [⟨strL "Check the Terraform documentation for this specific error message",
        none, ConfidenceLevel.medium⟩,
       ⟨strL "Try running " ++ [apos] ++ strL "terraform validate" ++ [apos] ++
          strL " for more detailed error information",
        some (strL "terraform validate"), ConfidenceLevel.medium⟩,
       ⟨strL "Make sure you" ++ [apos] ++
          strL "re using a compatible Terraform version for your configuration",
        none, ConfidenceLevel.low⟩]⟩, ?_, rfl⟩
    rfl

theorem claim10_witness :
    (buildContext (strL "something bad happened on main.tf:3")).resourceType = some (strL "main")
  ∧ (buildContext (strL "something bad happened on main.tf:3")).resourceName = some (strL "tf") := by
  have h := claim10_dotted_fallback.1 (strL "something bad happened on main.tf:3") (strL "main.tf")
    (by rfl) (by rfl) (by decide)
  refine ⟨?_, ?_⟩
  · rw [h.1]
    rfl
  · rw [h.2]
    rfl

-- First-match characterization of the classification loop.
theorem classifyGo_cases (m : Str) (l : List (Pat × ErrorType)) :
    (∃ l₁ x l₂, l = l₁ ++ x :: l₂
      ∧ (∀ y ∈ l₁, patMatches y.1 m = false)
      ∧ patMatches x.1 m = true
      ∧ classifyGo m l = x.2)
  ∨ ((∀ e ∈ l, patMatches e.1 m = false) ∧ classifyGo m l = ErrorType.other) := by
  induction l with
  | nil =>
    right
    refine ⟨?_, rfl⟩
    intro e he
    simp at he
  | cons x xs ih =>
    by_cases hx : patMatches x.1 m = true
    · left
      exact ⟨[], x, xs, rfl, by simp, hx, by simp [classifyGo, hx]⟩
    · have hx2 : patMatches x.1 m = false := by
        cases h2 : patMatches x.1 m
        · rfl
        · exact absurd h2 hx
      rcases ih with ⟨l₁, y, l₂, hsp, hall, hy, heq⟩ | ⟨hall, heq⟩
      · left
        refine ⟨x :: l₁, y, l₂, by rw [hsp]; rfl, ?_, hy, ?_⟩
        · intro z hz
          rcases List.mem_cons.mp hz with hz1 | hz2
          · rw [hz1]
            exact hx2
          · exact hall z hz2
        · rw [show classifyGo m (x :: xs) = classifyGo m xs by simp [classifyGo, hx2], heq]
      · right
        refine ⟨?_, by rw [show classifyGo m (x :: xs) = classifyGo m xs by simp [classifyGo, hx2], heq]⟩
        intro e he
        rcases List.mem_cons.mp he with he1 | he2
        · rw [he1]
          exact hx2
        · exact hall e he2

/-- Claim C1: classification is first-match-wins over the fixed ordered
table ERROR_PATTERNS: for every message, either the table splits as
earlier entries that all fail to match, a first matching entry whose
category is returned, and a remainder; or no entry matches and the
category is other.  In particular, when patterns of two different
categories both match, the category of the earlier table entry wins. -/
theorem claim1_first_match_wins (msg : Str) :
    (∃ l₁ x l₂, ERROR_PATTERNS = l₁ ++ x :: l₂
      ∧ (∀ y ∈ l₁, patMatches y.1 (lowerStr msg) = false)
      ∧ patMatches x.1 (lowerStr msg) = true
      ∧ classifyErrorType msg = x.2)
  ∨ ((∀ e ∈ ERROR_PATTERNS, patMatches e.1 (lowerStr msg) = false)
      ∧ classifyErrorType msg = ErrorType.other) :=
  classifyGo_cases (lowerStr msg) ERROR_PATTERNS

/-- Claim C3: every category handler of the recommendation synthesizer
returns at least one recommendation, and consequently every error in the
final report has a non-empty recommendations list. -/
theorem claim3_recommendations_nonempty :
    (∀ e : Error, genRecsForError e ≠ [])
  ∧ (∀ s : Str, ∀ e ∈ (analyzeTerraformPlan s).errors, e.recommendations ≠ []) := by
  have part1 : ∀ e : Error, genRecsForError e ≠ [] := by
    intro e
    rcases e with ⟨et, msg, ar, recs⟩
    cases et <;>
      simp only [genRecsForError, recsForValidation, recsForDependency, recsForPermission,
        recsForSyntax, recsForConflict, recsForStateMismatch, recsForProvider,
        recsForModule, recsForOther] <;>
      (repeat' split) <;>
      simp
  refine ⟨part1, ?_⟩
  intro s e he
  unfold analyzeTerraformPlan at he
  split at he
  · simp [formatResponse] at he
  · split at he
    · simp [formatResponse] at he
    · simp only [formatResponse] at he
      simp only [generateRecommendations, List.mem_map] at he
      obtain ⟨a, _, rfl⟩ := he
      exact part1 a

theorem claim3_witness :
    (List.getD (analyzeTerraformPlan (strL "Error: database already exists")).errors 0
        ⟨ErrorType.other, [], [], []⟩).recommendations ≠ [] :=
  claim3_recommendations_nonempty.2 (strL "Error: database already exists") _ (by decide)

-- Summary machinery lemmas for Claim C7.

def countType (errors : List Error) (t : ErrorType) : Nat :=
  errors.countP fun e => decide (e.errorType = t)

-- Index of the first error of a given type (length when absent).
def firstIdxType : List Error → ErrorType → Nat
  | [], _ => 0
  | e :: es, t => if e.errorType = t then 0 else firstIdxType es t + 1

def lookupC (t : ErrorType) : List (ErrorType × Nat) → Nat
  | [] => 0
  | x :: rest => if x.1 = t then x.2 else lookupC t rest

def keysOf (acc : List (ErrorType × Nat)) : List ErrorType := acc.map Prod.fst

theorem lookupC_bump_self (t : ErrorType) (acc : List (ErrorType × Nat)) :
    lookupC t (bump t acc) = lookupC t acc + 1 := by
  induction acc with
  | nil => simp [bump, lookupC]
  | cons x rest ih =>
    rcases x with ⟨u, c⟩
    by_cases h : u = t
    · subst h
      simp [bump, lookupC]
    · simp [bump, lookupC, h, ih]

theorem lookupC_bump_ne (t k : ErrorType) (acc : List (ErrorType × Nat)) (h : k ≠ t) :
    lookupC t (bump k acc) = lookupC t acc := by
  induction acc with
  | nil => simp [bump, lookupC, h]
  | cons x rest ih =>
    rcases x with ⟨u, c⟩
    by_cases hu : u = k
    · subst hu
      simp [bump, lookupC, h]
    · simp [bump, lookupC, hu, ih]

theorem countType_cons (e : Error) (es : List Error) (t : ErrorType) :
    countType (e :: es) t = (if e.errorType = t then 1 else 0) + countType es t := by
  by_cases h : e.errorType = t <;>
    (simp [countType, List.countP_cons, h]; try omega)

theorem countType_append (l₁ l₂ : List Error) (t : ErrorType) :
    countType (l₁ ++ l₂) t = countType l₁ t + countType l₂ t := by
  simp [countType, List.countP_append]

theorem lookupC_foldl (l : List Error) :
    ∀ (acc : List (ErrorType × Nat)) (t : ErrorType),
      lookupC t (l.foldl (fun acc e => bump e.errorType acc) acc) =
        lookupC t acc + countType l t := by
  induction l with
  | nil =>
    intro acc t
    simp [countType]
  | cons e es ih =>
    intro acc t
    rw [List.foldl_cons, ih, countType_cons]
    by_cases h : e.errorType = t
    · rw [if_pos h, h, lookupC_bump_self]
      omega
    · rw [if_neg h, lookupC_bump_ne t _ _ h]
      omega

theorem lookupC_typeCounts (errors : List Error) (t : ErrorType) :
    lookupC t (typeCounts errors) = countType errors t := by
  have h := lookupC_foldl errors [] t
  simpa [typeCounts, lookupC] using h

theorem bump_pos (k : ErrorType) :
    ∀ acc : List (ErrorType × Nat), (∀ x ∈ acc, 0 < x.2) → ∀ x ∈ bump k acc, 0 < x.2 := by
  intro acc
  induction acc with
  | nil =>
    intro _ x hx
    simp [bump] at hx
    simp [hx]
  | cons y rest ih =>
    intro h x hx
    rcases y with ⟨u, c⟩
    by_cases hu : u = k
    · subst hu
      simp only [bump, if_pos rfl] at hx
      rcases List.mem_cons.mp hx with h1 | h2
      · simp [h1]
      · exact h x (List.mem_cons_of_mem _ h2)
    · simp only [bump, if_neg hu] at hx
      rcases List.mem_cons.mp hx with h1 | h2
      · rw [h1]
        exact h (u, c) (List.mem_cons_self _ _)
      · exact ih (fun z hz => h z (List.mem_cons_of_mem _ hz)) x h2

theorem typeCounts_pos (errors : List Error) : ∀ x ∈ typeCounts errors, 0 < x.2 := by
  have key : ∀ (l : List Error) (acc), (∀ x ∈ acc, 0 < x.2) →
      ∀ x ∈ l.foldl (fun acc e => bump e.errorType acc) acc, 0 < x.2 := by
    intro l
    induction l with
    | nil =>
      intro acc h
      simpa using h
    | cons e es ih =>
      intro acc h
      rw [List.foldl_cons]
      exact ih _ (bump_pos _ _ h)
  exact key errors [] (by simp)

theorem keys_bump (k : ErrorType) (acc : List (ErrorType × Nat)) :
    keysOf (bump k acc) = if k ∈ keysOf acc then keysOf acc else keysOf acc ++ [k] := by
  induction acc with
  | nil => simp [bump, keysOf]
  | cons x rest ih =>
    rcases x with ⟨u, c⟩
    by_cases hu : u = k
    · subst hu
      simp [bump, keysOf]
    · have hne : (k = u) = False := by
        simp
        intro hc
        exact hu hc.symm
      simp only [keysOf, List.map_cons] at ih ⊢
      simp only [bump, if_neg hu, List.map_cons, ih, List.mem_cons, hne, false_or]
      by_cases hk : k ∈ List.map Prod.fst rest
      · simp [hk]
      · simp [hk]

theorem nodup_keys_typeCounts (errors : List Error) : (keysOf (typeCounts errors)).Nodup := by
  have hb : ∀ (k : ErrorType) (acc : List (ErrorType × Nat)),
      (keysOf acc).Nodup → (keysOf (bump k acc)).Nodup := by
    intro k acc h
    rw [keys_bump]
    split
    · exact h
    · rename_i hk
      simp [List.nodup_append, h, hk]
  have key : ∀ (l : List Error) (acc), (keysOf acc).Nodup →
      (keysOf (l.foldl (fun acc e => bump e.errorType acc) acc)).Nodup := by
    intro l
    induction l with
    | nil =>
      intro acc h
      simpa using h
    | cons e es ih =>
      intro acc h
      rw [List.foldl_cons]
      exact ih _ (hb _ _ h)
  exact key errors [] (by simp [keysOf])

theorem lookupC_pos_mem (t : ErrorType) :
    ∀ acc : List (ErrorType × Nat), 0 < lookupC t acc → t ∈ keysOf acc := by
  intro acc
  induction acc with
  | nil =>
    intro h
    simp [lookupC] at h
  | cons x rest ih =>
    intro h
    by_cases hx : x.1 = t
    · simp [keysOf, hx]
    · simp only [lookupC, if_neg hx] at h
      simp only [keysOf, List.map_cons]
      exact List.mem_cons_of_mem _ (ih h)

theorem lookupC_of_mem :
    ∀ (acc : List (ErrorType × Nat)) (u : ErrorType) (c : Nat),
      (u, c) ∈ acc → (keysOf acc).Nodup → lookupC u acc = c := by
  intro acc
  induction acc with
  | nil =>
    intro u c h _
    simp at h
  | cons x rest ih =>
    intro u c hmem hnd
    have hnd2 : (x.1 :: keysOf rest).Nodup := by simpa [keysOf] using hnd
    rcases List.mem_cons.mp hmem with heq | hrest
    · rw [← heq]
      simp [lookupC]
    · have hx : x.1 ≠ u := by
        intro hcontra
        have hu : u ∈ keysOf rest := by
          simp only [keysOf, List.mem_map]
          exact ⟨(u, c), hrest, rfl⟩
        exact (List.nodup_cons.mp hnd2).1 (hcontra ▸ hu)
      simp only [lookupC, if_neg hx]
      exact ih u c hrest (List.nodup_cons.mp hnd2).2

theorem count_pos_mem_keys (l : List Error) (t : ErrorType) (h : 0 < countType l t) :
    t ∈ keysOf (typeCounts l) :=
  lookupC_pos_mem t _ (by rw [lookupC_typeCounts]; exact h)

theorem firstIdxType_lt (l : List Error) (t : ErrorType) (h : 0 < countType l t) :
    firstIdxType l t < l.length := by
  induction l with
  | nil => simp [countType] at h
  | cons e es ih =>
    by_cases he : e.errorType = t
    · simp [firstIdxType, he]
    · rw [countType_cons, if_neg he] at h
      simp only [firstIdxType, if_neg he, List.length_cons]
      have := ih (by omega)
      omega

theorem firstIdxType_append_left (l₁ l₂ : List Error) (t : ErrorType) (h : 0 < countType l₁ t) :
    firstIdxType (l₁ ++ l₂) t = firstIdxType l₁ t := by
  induction l₁ with
  | nil => simp [countType] at h
  | cons e es ih =>
    by_cases he : e.errorType = t
    · simp [firstIdxType, he]
    · rw [countType_cons, if_neg he] at h
      simp only [List.cons_append, firstIdxType, if_neg he]
      show firstIdxType (es ++ l₂) t + 1 = firstIdxType es t + 1
      rw [ih (by omega)]

theorem firstIdxType_append_right (l₁ l₂ : List Error) (t : ErrorType) (h : countType l₁ t = 0) :
    firstIdxType (l₁ ++ l₂) t = l₁.length + firstIdxType l₂ t := by
  induction l₁ with
  | nil => simp
  | cons e es ih =>
    have he : e.errorType ≠ t := by
      intro hc
      rw [countType_cons, if_pos hc] at h
      omega
    rw [countType_cons, if_neg he] at h
    simp only [List.cons_append, firstIdxType, if_neg he, List.length_cons]
    show firstIdxType (es ++ l₂) t + 1 = es.length + 1 + firstIdxType l₂ t
    rw [ih (by omega)]
    omega

-- The dict keys of the summary grouping are in first-encounter order.
theorem keys_pairwise (errors : List Error) :
    ((keysOf (typeCounts errors)).Pairwise fun a b => firstIdxType errors a ≤ firstIdxType errors b)
  ∧ (∀ u ∈ keysOf (typeCounts errors), 0 < countType errors u) := by
  induction errors using List.reverseRecOn with
  | nil =>
    constructor
    · simp [typeCounts, keysOf]
    · intro u hu
      simp [typeCounts, keysOf] at hu
  | append_singleton l e ih =>
    obtain ⟨ihp, ihc⟩ := ih
    have htc : typeCounts (l ++ [e]) = bump e.errorType (typeCounts l) := by
      simp [typeCounts, List.foldl_append]
    have hidx : ∀ u, 0 < countType l u → firstIdxType (l ++ [e]) u = firstIdxType l u :=
      fun u hu => firstIdxType_append_left l [e] u hu
    have hcnt : ∀ u, countType l u ≤ countType (l ++ [e]) u := by
      intro u
      rw [countType_append]
      omega
    by_cases hk : e.errorType ∈ keysOf (typeCounts l)
    · rw [htc, keys_bump, if_pos hk]
      constructor
      · refine ihp.imp_of_mem ?_
        intro a b ha hb hab
        rw [hidx a (ihc a ha), hidx b (ihc b hb)]
        exact hab
      · intro u hu
        have := ihc u hu
        have := hcnt u
        omega
    · rw [htc, keys_bump, if_neg hk]
      have hce : countType l e.errorType = 0 := by
        by_contra hc
        exact hk (count_pos_mem_keys l e.errorType (Nat.pos_of_ne_zero hc))
      constructor
      · rw [List.pairwise_append]
        refine ⟨?_, by simp, ?_⟩
        · refine ihp.imp_of_mem ?_
          intro a b ha hb hab
          rw [hidx a (ihc a ha), hidx b (ihc b hb)]
          exact hab
        · intro a ha b hb
          simp only [List.mem_singleton] at hb
          subst hb
          rw [hidx a (ihc a ha), firstIdxType_append_right l [e] e.errorType hce]
          have h1 : firstIdxType l a < l.length := firstIdxType_lt l a (ihc a ha)
          omega
      · intro u hu
        rcases List.mem_append.mp hu with hold | hnew
        · have := ihc u hold
          have := hcnt u
          omega
        · simp only [List.mem_singleton] at hnew
          subst hnew
          rw [countType_append]
          have : countType [e] e.errorType = 1 := by simp [countType]
          omega

theorem foldlMax_spec :
    ∀ (l : List (ErrorType × Nat)) (cur m : ErrorType × Nat),
      l.foldl (fun cur y => if cur.2 < y.2 then y else cur) cur = m →
      (m = cur ∧ ∀ y ∈ l, y.2 ≤ cur.2)
    ∨ (∃ l₁ l₂, l = l₁ ++ m :: l₂ ∧ cur.2 < m.2
        ∧ (∀ y ∈ l₁, y.2 < m.2) ∧ (∀ y ∈ l₂, y.2 ≤ m.2)) := by
  intro l
  induction l with
  | nil =>
    intro cur m h
    left
    exact ⟨h.symm, by simp⟩
  | cons y ys ih =>
    intro cur m h
    rw [List.foldl_cons] at h
    by_cases hc : cur.2 < y.2
    · rw [if_pos hc] at h
      rcases ih y m h with ⟨hm, hall⟩ | ⟨l₁, l₂, hsp, hlt, h₁, h₂⟩
      · right
        refine ⟨[], ys, by rw [hm]; rfl, by rw [hm]; exact hc, by simp, ?_⟩
        intro z hz
        rw [hm]
        exact hall z hz
      · right
        refine ⟨y :: l₁, l₂, by rw [hsp]; rfl, Nat.lt_trans hc hlt, ?_, h₂⟩
        intro z hz
        rcases List.mem_cons.mp hz with h1 | h2
        · rw [h1]
          exact hlt
        · exact h₁ z h2
    · rw [if_neg hc] at h
      rcases ih cur m h with ⟨hm, hall⟩ | ⟨l₁, l₂, hsp, hlt, h₁, h₂⟩
      · left
        refine ⟨hm, ?_⟩
        intro z hz
        rcases List.mem_cons.mp hz with h1 | h2
        · rw [h1]
          omega
        · exact hall z h2
      · right
        refine ⟨y :: l₁, l₂, by rw [hsp]; rfl, hlt, ?_, h₂⟩
        intro z hz
        rcases List.mem_cons.mp hz with h1 | h2
        · rw [h1]
          omega
        · exact h₁ z h2

theorem maxFirst_spec (l : List (ErrorType × Nat)) (h : l ≠ []) :
    ∃ m l₁ l₂, maxFirst l = some m ∧ l = l₁ ++ m :: l₂
      ∧ (∀ y ∈ l₁, y.2 < m.2) ∧ (∀ y ∈ l₂, y.2 ≤ m.2) := by
  rcases l with _ | ⟨x, rest⟩
  · exact absurd rfl h
  · obtain ⟨m, hm⟩ : ∃ m, rest.foldl (fun cur y => if cur.2 < y.2 then y else cur) x = m :=
      ⟨_, rfl⟩
    have hmax : maxFirst (x :: rest) = some m := by
      rw [← hm]
      rfl
    rcases foldlMax_spec rest x m hm with ⟨hmm, hall⟩ | ⟨l₁, l₂, hsp, hlt, h₁, h₂⟩
    · refine ⟨m, [], rest, hmax, by simp [hmm], by simp, ?_⟩
      intro z hz
      rw [hmm]
      exact hall z hz
    · refine ⟨m, x :: l₁, l₂, hmax, ?_, ?_, h₂⟩
      · rw [hsp]
        rfl
      · intro z hz
        rcases List.mem_cons.mp hz with h1 | h2
        · rw [h1]
          exact hlt
        · exact h₁ z h2

theorem bump_ne_nil (k : ErrorType) (acc : List (ErrorType × Nat)) : bump k acc ≠ [] := by
  rcases acc with _ | ⟨x, rest⟩
  · simp [bump]
  · rcases x with ⟨u, c⟩
    by_cases h : u = k <;> simp [bump, h]

theorem typeCounts_ne_nil (errors : List Error) (h : errors ≠ []) : typeCounts errors ≠ [] := by
  have key : ∀ (l : List Error) (acc : List (ErrorType × Nat)), acc ≠ [] →
      l.foldl (fun acc e => bump e.errorType acc) acc ≠ [] := by
    intro l
    induction l with
    | nil =>
      intro acc h
      simpa using h
    | cons e es ih =>
      intro acc _
      rw [List.foldl_cons]
      exact ih _ (bump_ne_nil _ _)
  rcases errors with _ | ⟨e, es⟩
  · exact absurd rfl h
  · show (e :: es).foldl (fun acc e => bump e.errorType acc) [] ≠ []
    rw [List.foldl_cons]
    exact key es _ (bump_ne_nil _ _)

/-- Claim C7: when the report status is error, the summary is the
templated sentence reporting the error count with correct pluralization
(issue for exactly one, issues otherwise) and naming the most frequent
errorType among the errors, with frequency ties broken in favor of the
category encountered first in iteration order. -/
theorem claim7_error_summary (errors : List Error) (rc : Option ResourceCounts)
    (h : (formatResponse errors rc).status = ResponseStatus.error) :
    ∃ t : ErrorType,
      0 < countType errors t
    ∧ (∀ u : ErrorType, countType errors u ≤ countType errors t)
    ∧ (∀ u : ErrorType, countType errors u = countType errors t →
        firstIdxType errors t ≤ firstIdxType errors u)
    ∧ (formatResponse errors rc).summary =
        strL "Found " ++ natStr errors.length ++ strL " issue" ++
          (if errors.length = 1 then [] else strL "s") ++
          strL " in your Terraform plan. Most are related to " ++ errorTypeValue t ++
          strL " problems. Check the recommendations for solutions." := by
  have hst : determineStatus errors = ResponseStatus.error := h
  have hne : errors ≠ [] := by
    intro he
    subst he
    simp [determineStatus] at hst
  obtain ⟨m, l₁, l₂, hmax, hsp, hlt, hle⟩ :=
    maxFirst_spec (typeCounts errors) (typeCounts_ne_nil errors hne)
  have hnd := nodup_keys_typeCounts errors
  have hmem : m ∈ typeCounts errors := by
    rw [hsp]
    exact List.mem_append_right _ (List.mem_cons_self _ _)
  have hcm : countType errors m.1 = m.2 := by
    rw [← lookupC_typeCounts]
    exact lookupC_of_mem _ m.1 m.2 (by simpa using hmem) hnd
  have hpos : 0 < m.2 := typeCounts_pos errors m hmem
  refine ⟨m.1, by omega, ?_, ?_, ?_⟩
  · intro u
    by_cases hu : 0 < countType errors u
    · have humem : u ∈ keysOf (typeCounts errors) := count_pos_mem_keys errors u hu
      obtain ⟨c, hcmem⟩ : ∃ c, (u, c) ∈ typeCounts errors := by simpa [keysOf] using humem
      have hc : countType errors u = c := by
        rw [← lookupC_typeCounts]
        exact lookupC_of_mem _ u c hcmem hnd
      rw [hc, hcm]
      rw [hsp] at hcmem
      rcases List.mem_append.mp hcmem with h1 | h2
      · exact Nat.le_of_lt (hlt _ h1)
      · rcases List.mem_cons.mp h2 with heq | h3
        · exact Nat.le_of_eq (congrArg Prod.snd heq)
        · exact hle _ h3
    · omega
  · intro u hu
    by_cases hut : u = m.1
    · rw [hut]
    · have hupos : 0 < countType errors u := by
        rw [hu, hcm]
        exact hpos
      have humem : u ∈ keysOf (typeCounts errors) := count_pos_mem_keys errors u hupos
      obtain ⟨c, hcmem⟩ : ∃ c, (u, c) ∈ typeCounts errors := by simpa [keysOf] using humem
      have hcu : countType errors u = c := by
        rw [← lookupC_typeCounts]
        exact lookupC_of_mem _ u c hcmem hnd
      rw [hsp] at hcmem
      rcases List.mem_append.mp hcmem with h1 | h2
      · exfalso
        have hx2 : c < m.2 := hlt _ h1
        rw [hu, hcm] at hcu
        omega
      · rcases List.mem_cons.mp h2 with heq | h3
        · exact absurd (congrArg Prod.fst heq) hut
        · have hpw := (keys_pairwise errors).1
          have hkeys : keysOf (typeCounts errors) = keysOf l₁ ++ m.1 :: keysOf l₂ := by
            rw [hsp]
            simp [keysOf]
          rw [hkeys] at hpw
          have hp2 := (List.pairwise_append.mp hpw).2.1
          refine (List.pairwise_cons.mp hp2).1 u ?_
          simp only [keysOf, List.mem_map]
          exact ⟨(u, c), h3, rfl⟩
  · show generateSummary (determineStatus errors) errors = _
    rw [hst]
    unfold generateSummary
    rw [if_neg (by intro hc; cases hc), if_neg (by intro hc; cases hc), hmax]

theorem claim7_witness :
    ∃ t : ErrorType,
      0 < countType [(⟨ErrorType.provider, [], [], [⟨[], none, ConfidenceLevel.high⟩]⟩ : Error)] t
    ∧ (∀ u : ErrorType,
        countType [(⟨ErrorType.provider, [], [], [⟨[], none, ConfidenceLevel.high⟩]⟩ : Error)] u ≤
        countType [(⟨ErrorType.provider, [], [], [⟨[], none, ConfidenceLevel.high⟩]⟩ : Error)] t)
    ∧ (∀ u : ErrorType,
        countType [(⟨ErrorType.provider, [], [], [⟨[], none, ConfidenceLevel.high⟩]⟩ : Error)] u =
        countType [(⟨ErrorType.provider, [], [], [⟨[], none, ConfidenceLevel.high⟩]⟩ : Error)] t →
        firstIdxType [(⟨ErrorType.provider, [], [], [⟨[], none, ConfidenceLevel.high⟩]⟩ : Error)] t ≤
        firstIdxType [(⟨ErrorType.provider, [], [], [⟨[], none, ConfidenceLevel.high⟩]⟩ : Error)] u)
    ∧ (formatResponse [(⟨ErrorType.provider, [], [], [⟨[], none, ConfidenceLevel.high⟩]⟩ : Error)] none).summary =
        strL "Found " ++
          natStr [(⟨ErrorType.provider, [], [], [⟨[], none, ConfidenceLevel.high⟩]⟩ : Error)].length ++
          strL " issue" ++
          (if [(⟨ErrorType.provider, [], [], [⟨[], none, ConfidenceLevel.high⟩]⟩ : Error)].length = 1
            then [] else strL "s") ++
          strL " in your Terraform plan. Most are related to " ++ errorTypeValue t ++
          strL " problems. Check the recommendations for solutions." :=
  claim7_error_summary [⟨ErrorType.provider, [], [], [⟨[], none, ConfidenceLevel.high⟩]⟩] none (by decide)
